import Mathlib

/-!
Verification development for the neo4j-knowledge-mcp repository.

This file shallowly embeds the algorithmic core of the repository in Lean:

* `utils/cypher-builder.js` — query builders (`createConceptQuery`,
  `createFactConceptRelationQuery`, `findPathsQuery`, `analyzeGapsQuery`);
* `knowledge/retrieval.js` — `searchKnowledge`, `exploreKnowledgeGraph`,
  `findKnowledgePaths`, `analyzeKnowledgeGaps`;
* `knowledge/storage.js` — `createRelationship`, concept upsert semantics;
* `extractors/mcp-extractor.js` — the heuristic concept/fact extractor.

JavaScript functions are translated into executable Lean functions.  The
external Neo4j store is modelled by a finite graph value (`Graph`); the
semantics of each Cypher template issued by the code is translated by hand
into a Lean function over that model, following the template text clause by
clause.  JavaScript number values are modelled by `ℚ`; JavaScript falsiness
of `0`, `""`, `null`/`undefined` is modelled explicitly where the code
relies on it (`confidence || 0.8`, `description || name`, `node.content`).
Rational constants are written as raw `Rat` structure literals (via `ratL`)
so that every definition evaluates inside the kernel.
-/

/-! ## Basic character and string utilities (ASCII, matching JS semantics) -/

def isUpperAZ (c : Char) : Bool := 'A' ≤ c && c ≤ 'Z'

def isLowerAZ (c : Char) : Bool := 'a' ≤ c && c ≤ 'z'

def isAsciiLetter (c : Char) : Bool := isUpperAZ c || isLowerAZ c

/-- JS regex word character class `\w` = `[A-Za-z0-9_]`. -/
def isWordChar (c : Char) : Bool := isAsciiLetter c || c.isDigit || c = '_'

/-- Whitespace as matched by the JS regex class `\s` (ASCII fragment). -/
def isSpaceChar (c : Char) : Bool := c = ' ' || c = '\t' || c = '\n' || c = '\r'

/-- Lower-casing a string character-wise, as `String.prototype.toLowerCase`
does on ASCII input. -/
def lowerStr (s : String) : String := String.mk (s.data.map Char.toLower)

/-- Boolean prefix test on lists (executable). -/
def listPrefixOf [DecidableEq α] : List α → List α → Bool
  | [], _ => true
  | _ :: _, [] => false
  | a :: as, b :: bs => decide (a = b) && listPrefixOf as bs

/-- Boolean contiguous-substring test on lists (executable), used to model
both Cypher `CONTAINS` and JS `String.prototype.includes`. -/
def listInfixOf [DecidableEq α] (needle : List α) : List α → Bool
  | [] => listPrefixOf needle []
  | b :: bs => listPrefixOf needle (b :: bs) || listInfixOf needle bs

/-- `strContainsSub hay needle` models `hay.includes(needle)` / `hay CONTAINS needle`. -/
def strContainsSub (hay needle : String) : Bool := listInfixOf needle.data hay.data

theorem listPrefixOf_iff [DecidableEq α] (n l : List α) :
    listPrefixOf n l = true ↔ n <+: l := by
  induction n generalizing l with
  | nil => simp [listPrefixOf]
  | cons a as ih =>
    cases l with
    | nil => simp [listPrefixOf]
    | cons b bs => simp [listPrefixOf, List.cons_prefix_cons, ih]

theorem listInfixOf_iff [DecidableEq α] (n l : List α) :
    listInfixOf n l = true ↔ n <:+: l := by
  induction l with
  | nil =>
    simp [listInfixOf, listPrefixOf_iff]
  | cons b bs ih =>
    simp only [listInfixOf, Bool.or_eq_true, listPrefixOf_iff, ih]
    exact (List.infix_cons_iff).symm

/-- First-occurrence deduplication with explicit fuel; with fuel at least the
length of the list this is the insertion-order semantics of a JS `Set`. -/
def dedupFirst [DecidableEq α] : Nat → List α → List α
  | _, [] => []
  | 0, l => l
  | fuel + 1, a :: as => a :: dedupFirst fuel (as.filter (fun b => decide (b ≠ a)))

/-- Minimum of a list of naturals, as `Math.min(...xs)` computes it on a
nonempty argument list (the empty case is never reached by the code). -/
def minList : List Nat → Nat
  | [] => 0
  | x :: xs => xs.foldl min x

theorem foldlMin_le_acc : ∀ (ys : List Nat) (acc : Nat), ys.foldl min acc ≤ acc := by
  intro ys
  induction ys with
  | nil => intro acc; exact le_rfl
  | cons y ys ih =>
    intro acc
    exact le_trans (ih (min acc y)) (min_le_left acc y)

theorem foldlMin_le_mem : ∀ (ys : List Nat) (acc b : Nat), b ∈ ys → ys.foldl min acc ≤ b := by
  intro ys
  induction ys with
  | nil => intro acc b hb; cases hb
  | cons y ys ih =>
    intro acc b hb
    rcases List.mem_cons.mp hb with rfl | hb
    · exact le_trans (foldlMin_le_acc ys (min acc b)) (min_le_right acc b)
    · exact ih (min acc y) b hb

theorem foldlMin_attained : ∀ (ys : List Nat) (acc : Nat),
    ys.foldl min acc = acc ∨ ys.foldl min acc ∈ ys := by
  intro ys
  induction ys with
  | nil => intro acc; exact Or.inl rfl
  | cons y ys ih =>
    intro acc
    rcases ih (min acc y) with h1 | h1
    · rcases le_total acc y with h | h
      · exact Or.inl (by rw [List.foldl_cons, h1, min_eq_left h])
      · exact Or.inr (by
          rw [List.foldl_cons, h1, min_eq_right h]
          exact List.mem_cons_self y ys)
    · exact Or.inr (by
        rw [List.foldl_cons]
        exact List.mem_cons_of_mem _ h1)

theorem minList_le_of_mem {l : List Nat} {a : Nat} (h : a ∈ l) : minList l ≤ a := by
  cases l with
  | nil => cases h
  | cons x xs =>
    rcases List.mem_cons.mp h with rfl | h
    · exact foldlMin_le_acc xs a
    · exact foldlMin_le_mem xs x a h

theorem minList_mem {l : List Nat} (h : l ≠ []) : minList l ∈ l := by
  cases l with
  | nil => exact absurd rfl h
  | cons x xs =>
    rcases foldlMin_attained xs x with h1 | h1
    · rw [show minList (x :: xs) = x from by simp [minList, h1]]
      exact List.mem_cons_self x xs
    · exact List.mem_cons_of_mem _ (by simpa [minList] using h1)

/-- Smart constructor for rational constants in lowest terms; keeps every
rational in the development kernel-reducible. -/
def ratL (n : ℤ) (d : ℕ) (h1 : d ≠ 0 := by decide)
    (h2 : n.natAbs.Coprime d := by norm_num [Nat.Coprime]) : ℚ := ⟨n, d, h1, h2⟩

/-! ## JS falsiness helpers used by the storage layer -/

/-- Models `confidence || 0.8` applied to an optional JS number: both
`undefined` and `0` fall back to the default. -/
def jsConfOr08 (c : Option ℚ) : ℚ :=
  match c with
  | some v => if v = 0 then ratL 4 5 else v
  | none => ratL 4 5

/-- Models `description || name`: both `undefined` and the empty string fall
back to the concept name. -/
def jsStrOr (d : Option String) (fallback : String) : String :=
  match d with
  | some s => if s = "" then fallback else s
  | none => fallback

/-! ## Query-builder string composition (utils/cypher-builder.js, knowledge/storage.js)

These definitions embed the *string building* performed by the code, which
is what claim C1 is about.  Parameter maps record which values are passed
as bound parameters. -/

inductive ParamVal where
  | str (s : String)
  | num (q : ℚ)
  | nat (n : Nat)
  | obj (s : String)
deriving Repr, DecidableEq

structure QueryWithParams where
  query : String
  params : List (String × ParamVal)
deriving Repr, DecidableEq

/-- The identifier allow-list pattern named by the spec:
`^[A-Za-z_][A-Za-z0-9_]*$`. -/
def identTokOk (s : String) : Bool :=
  match s.data with
  | [] => false
  | c :: rest =>
    (isAsciiLetter c || c = '_') && rest.all (fun d => isAsciiLetter d || d.isDigit || d = '_')

/-- Embeds `createFactConceptRelationQuery` (utils/cypher-builder.js lines
83-100): the relationship type is spliced into the MERGE clause verbatim,
the two ids are bound parameters. -/
def createFactConceptRelationQuery (factId conceptId : String)
    (relationshipType : String := "ABOUT") : QueryWithParams :=
  { query :=
      "\n    MATCH (f:Fact \x7bid: $factId\x7d)\n    MATCH (c:Concept \x7bid: $conceptId\x7d)\n    MERGE (f)-[r:"
      ++ relationshipType ++
      "]->(c)\n    RETURN f.id as factId, c.id as conceptId, type(r) as relationship\n  "
    params := [("factId", ParamVal.str factId), ("conceptId", ParamVal.str conceptId)] }

/-- Embeds the query built inside `KnowledgeStorage.createRelationship`
(knowledge/storage.js, src/test-connection.js lines 813-853): the `type`
argument is spliced verbatim, ids and properties are bound parameters. -/
def createRelationshipQuery (sourceId targetId typ : String)
    (properties : String) : QueryWithParams :=
  { query :=
      "\n        MATCH (source) WHERE source.id = $sourceId\n        MATCH (target) WHERE target.id = $targetId\n        MERGE (source)-[r:"
      ++ typ ++
      "]->(target)\n        SET r += $properties\n        RETURN type(r) as relationship, source.id as sourceId, target.id as targetId\n      "
    params := [("sourceId", ParamVal.str sourceId), ("targetId", ParamVal.str targetId),
               ("properties", ParamVal.obj properties)] }

/-- `Array.prototype.join("|")`. -/
def joinBar : List String → String
  | [] => ""
  | [s] => s
  | s :: rest => s ++ "|" ++ joinBar rest

def isHexDigit (c : Char) : Bool :=
  c.isDigit || ('a' ≤ c && c ≤ 'f') || ('A' ≤ c && c ≤ 'F')

/-- The UUID shape test
`/^[0-9a-f]{8}-[0-9a-f]{4}-[0-9a-f]{4}-[0-9a-f]{4}-[0-9a-f]{12}$/i`
used to decide id-vs-name matching. -/
def isUuidStr (s : String) : Bool :=
  let l := s.data
  decide (l.length = 36) &&
    l.enum.all (fun p =>
      if p.1 = 8 || p.1 = 13 || p.1 = 18 || p.1 = 23 then decide (p.2 = '-')
      else isHexDigit p.2)

/-- The variable-length relationship filter string built by `findPathsQuery`
(utils/cypher-builder.js lines 117-119). -/
def relFilterStr (relationshipTypes : List String) (maxPathLength : Nat) : String :=
  if relationshipTypes.isEmpty then
    "[r*1.." ++ toString maxPathLength ++ "]"
  else
    "[r:" ++ joinBar relationshipTypes ++ "*1.." ++ toString maxPathLength ++ "]"

/-- Embeds the string composition of `findPathsQuery`
(utils/cypher-builder.js lines 107-162). -/
def findPathsQueryText (conceptA conceptB : String) (maxPathLength : Nat)
    (relationshipTypes : List String) (includePathNodes : Bool) : QueryWithParams :=
  let matchA :=
    if isUuidStr conceptA then "(a:Concept \x7bid: $conceptA\x7d)"
    else "(a:Concept) WHERE a.name = $conceptA OR a.name CONTAINS $conceptA"
  let matchB :=
    if isUuidStr conceptB then "(b:Concept \x7bid: $conceptB\x7d)"
    else "(b:Concept) WHERE b.name = $conceptB OR b.name CONTAINS $conceptB"
  let base :=
    "\n    MATCH " ++ matchA ++ ", " ++ matchB ++ "\n    MATCH path = (a)-"
      ++ relFilterStr relationshipTypes maxPathLength ++
      "-(b)\n    WITH path, relationships(path) as rels, length(path) as pathLength\n  "
  let tail :=
    if includePathNodes then
      "\n      RETURN path, rels, pathLength,\n             [node in nodes(path) | \x7bid: node.id, name: CASE WHEN node.name IS NOT NULL THEN node.name ELSE node.statement END, type: labels(node)[0]\x7d] as pathNodes\n      ORDER BY pathLength ASC\n      LIMIT 10\n    "
    else
      "\n      RETURN path, rels, pathLength\n      ORDER BY pathLength ASC\n      LIMIT 10\n    "
  { query := base ++ tail
    params := [("conceptA", ParamVal.str conceptA), ("conceptB", ParamVal.str conceptB),
               ("maxPathLength", ParamVal.nat maxPathLength)] }

/-! ## Substring-containment lemmas for the builder strings -/

theorem strContainsSub_self (s : String) : strContainsSub s s = true :=
  (listInfixOf_iff _ _).mpr (List.infix_refl _)

theorem strContainsSub_appendR {a : String} {n : String} (b : String)
    (h : strContainsSub a n = true) : strContainsSub (a ++ b) n = true := by
  rw [strContainsSub, listInfixOf_iff] at h ⊢
  rcases h with ⟨s, t, hst⟩
  exact ⟨s, t ++ b.data, by rw [String.data_append, ← hst]; simp⟩

theorem strContainsSub_appendL {b : String} {n : String} (a : String)
    (h : strContainsSub b n = true) : strContainsSub (a ++ b) n = true := by
  rw [strContainsSub, listInfixOf_iff] at h ⊢
  rcases h with ⟨s, t, hst⟩
  exact ⟨a.data ++ s, t, by rw [String.data_append, ← hst]; simp⟩

theorem joinBar_contains_head (rt : String) (rts : List String) :
    strContainsSub (joinBar (rt :: rts)) rt = true := by
  cases rts with
  | nil => exact strContainsSub_self rt
  | cons r rest =>
    show strContainsSub (rt ++ "|" ++ joinBar (r :: rest)) rt = true
    exact strContainsSub_appendR _ (strContainsSub_appendR _ (strContainsSub_self rt))

/-- C1: the spec claims every caller-supplied relationship-type token is
validated against `^[A-Za-z_][A-Za-z0-9_]*$` and rejected when it does not
match, before any string composition.  This is false: the code performs no
validation at all.  At the concrete token `"BAD TYPE]"` — which fails the
allow-list pattern — `createFactConceptRelationQuery` still splices the
token verbatim into the MERGE clause of the produced query. -/
theorem claim1_counterexample :
    identTokOk "BAD TYPE]" = false
    ∧ strContainsSub (createFactConceptRelationQuery "f-1" "c-1" "BAD TYPE]").query
        "BAD TYPE]" = true
    ∧ (createFactConceptRelationQuery "f-1" "c-1" "BAD TYPE]").params
        = [("factId", ParamVal.str "f-1"), ("conceptId", ParamVal.str "c-1")] :=
  ⟨by decide, by decide, rfl⟩

/-- C1 (amended): the query builders perform no validation of structural
tokens: for every relationship-type token, including every token rejected
by the identifier allow-list `^[A-Za-z_][A-Za-z0-9_]*$`, the token is
interpolated verbatim into the query text of `createFactConceptRelationQuery`,
of `KnowledgeStorage.createRelationship`, and of `findPathsQuery` (when it
heads the relationship-type list); literal values (ids, properties, path
bounds, endpoint identifiers) are passed only as bound parameters. -/
theorem claim1_amended (factId conceptId sourceId targetId props : String)
    (rt : String) (rts : List String) (a b : String) (n : Nat) (inc : Bool)
    (hbad : identTokOk rt = false) :
    strContainsSub (createFactConceptRelationQuery factId conceptId rt).query rt = true
    ∧ (createFactConceptRelationQuery factId conceptId rt).params
        = [("factId", ParamVal.str factId), ("conceptId", ParamVal.str conceptId)]
    ∧ strContainsSub (createRelationshipQuery sourceId targetId rt props).query rt = true
    ∧ (createRelationshipQuery sourceId targetId rt props).params
        = [("sourceId", ParamVal.str sourceId), ("targetId", ParamVal.str targetId),
           ("properties", ParamVal.obj props)]
    ∧ strContainsSub (findPathsQueryText a b n (rt :: rts) inc).query rt = true
    ∧ (findPathsQueryText a b n (rt :: rts) inc).params
        = [("conceptA", ParamVal.str a), ("conceptB", ParamVal.str b),
           ("maxPathLength", ParamVal.nat n)] := by
  refine ⟨?_, rfl, ?_, rfl, ?_, rfl⟩
  · exact strContainsSub_appendR _ (strContainsSub_appendL _ (strContainsSub_self rt))
  · exact strContainsSub_appendR _ (strContainsSub_appendL _ (strContainsSub_self rt))
  · show strContainsSub (_ ++ _) rt = true
    apply strContainsSub_appendR
    apply strContainsSub_appendR
    apply strContainsSub_appendL
    show strContainsSub (relFilterStr (rt :: rts) n) rt = true
    show strContainsSub (if (rt :: rts).isEmpty then _ else
      "[r:" ++ joinBar (rt :: rts) ++ "*1.." ++ toString n ++ "]") rt = true
    rw [List.isEmpty_cons, if_neg (by simp)]
    apply strContainsSub_appendR
    apply strContainsSub_appendR
    apply strContainsSub_appendR
    apply strContainsSub_appendL
    exact joinBar_contains_head rt rts

/-- Witness for `claim1_amended` at the concrete invalid token `"BAD TYPE"`. -/
theorem claim1_amended_witness :
    identTokOk "BAD TYPE" = false
    ∧ (strContainsSub (createFactConceptRelationQuery "f1" "c1" "BAD TYPE").query
        "BAD TYPE" = true
      ∧ (createFactConceptRelationQuery "f1" "c1" "BAD TYPE").params
          = [("factId", ParamVal.str "f1"), ("conceptId", ParamVal.str "c1")]
      ∧ strContainsSub (createRelationshipQuery "s1" "t1" "BAD TYPE" "\x7b\x7d").query
          "BAD TYPE" = true
      ∧ (createRelationshipQuery "s1" "t1" "BAD TYPE" "\x7b\x7d").params
          = [("sourceId", ParamVal.str "s1"), ("targetId", ParamVal.str "t1"),
             ("properties", ParamVal.obj "\x7b\x7d")]
      ∧ strContainsSub (findPathsQueryText "A" "B" 5 ["BAD TYPE"] true).query
          "BAD TYPE" = true
      ∧ (findPathsQueryText "A" "B" 5 ["BAD TYPE"] true).params
          = [("conceptA", ParamVal.str "A"), ("conceptB", ParamVal.str "B"),
             ("maxPathLength", ParamVal.nat 5)]) :=
  ⟨by decide, claim1_amended "f1" "c1" "s1" "t1" "\x7b\x7d" "BAD TYPE" [] "A" "B" 5 true (by decide)⟩

/-! ## Concept upsert semantics (createConceptQuery, utils/cypher-builder.js lines 12-42)

`createConceptQuery` binds `description || name`, `confidence || 0.8` and
issues `MERGE (c:Concept {name: $name})` with `ON CREATE` defaults and an
`ON MATCH` branch that raises confidence monotonically and refreshes the
description whenever the bound description parameter is non-empty.  The
store is modelled as the list of Concept nodes; `upsertConcept` is the
effect of running the built query through `KnowledgeStorage.storeConcept`. -/

structure ConceptNode where
  id : String
  name : String
  description : String
  source : Option String
  confidence : ℚ
deriving Repr, DecidableEq

/-- Effect of one `createConceptQuery` execution on the set of Concept
nodes.  `newId` stands for the `randomUUID()` assigned on creation. -/
def upsertConcept (store : List ConceptNode) (newId name : String)
    (description : Option String) (source : Option String)
    (confidence : Option ℚ) : List ConceptNode :=
  let descP := jsStrOr description name
  let confP := jsConfOr08 confidence
  if store.any (fun c => c.name = name) then
    store.map (fun c =>
      if c.name = name then
        { c with
          description := if descP ≠ "" then descP else c.description,
          confidence := if confP > c.confidence then confP else c.confidence }
      else c)
  else
    store ++ [⟨newId, name, descP, source, confP⟩]

theorem upsertConcept_fresh (store : List ConceptNode) (newId name : String)
    (d : Option String) (src : Option String) (c : Option ℚ)
    (h : store.any (fun x => x.name = name) = false) :
    upsertConcept store newId name d src c
      = store ++ [⟨newId, name, jsStrOr d name, src, jsConfOr08 c⟩] := by
  simp only [upsertConcept, h, Bool.false_eq_true, if_false]

theorem upsertConcept_hit (store : List ConceptNode) (newId name : String)
    (d : Option String) (src : Option String) (c : Option ℚ)
    (h : store.any (fun x => x.name = name) = true) :
    upsertConcept store newId name d src c
      = store.map (fun x =>
          if x.name = name then
            { x with
              description := if jsStrOr d name ≠ "" then jsStrOr d name else x.description,
              confidence := if jsConfOr08 c > x.confidence then jsConfOr08 c
                            else x.confidence }
          else x) := by
  simp only [upsertConcept, h, if_true]

/-- Two successive upserts of a fresh name: helper computing the final store. -/
theorem upsertConcept_twice (store : List ConceptNode) (id1 id2 name : String)
    (d1 d2 : Option String) (src1 src2 : Option String) (c1 c2 : Option ℚ)
    (hfresh : store.any (fun x => x.name = name) = false) :
    upsertConcept (upsertConcept store id1 name d1 src1 c1) id2 name d2 src2 c2
      = store ++ [⟨id1, name,
          (if jsStrOr d2 name ≠ "" then jsStrOr d2 name else jsStrOr d1 name),
          src1,
          (if jsConfOr08 c2 > jsConfOr08 c1 then jsConfOr08 c2 else jsConfOr08 c1)⟩] := by
  have hall : ∀ x ∈ store, ¬(x.name = name) := by
    intro x hx
    have h2 := List.any_eq_false.mp hfresh x hx
    simpa using h2
  rw [upsertConcept_fresh store id1 name d1 src1 c1 hfresh]
  have hhit : (store ++ [(⟨id1, name, jsStrOr d1 name, src1, jsConfOr08 c1⟩ : ConceptNode)]).any
      (fun x => x.name = name) = true := by
    simp [List.any_append]
  rw [upsertConcept_hit _ id2 name d2 src2 c2 hhit]
  rw [List.map_append]
  congr 1
  · rw [List.map_congr_left (g := id), List.map_id]
    intro x hx
    simp [hall x hx]
  · simp

theorem upsertConcept_twice_filter (store : List ConceptNode) (id1 id2 name : String)
    (d1 d2 : Option String) (src1 src2 : Option String) (c1 c2 : Option ℚ)
    (hfresh : store.any (fun x => x.name = name) = false) :
    ((upsertConcept (upsertConcept store id1 name d1 src1 c1) id2 name d2 src2 c2).filter
        (fun x => x.name = name))
      = [⟨id1, name,
          (if jsStrOr d2 name ≠ "" then jsStrOr d2 name else jsStrOr d1 name),
          src1,
          (if jsConfOr08 c2 > jsConfOr08 c1 then jsConfOr08 c2 else jsConfOr08 c1)⟩] := by
  rw [upsertConcept_twice store id1 id2 name d1 d2 src1 src2 c1 c2 hfresh]
  rw [List.filter_append]
  have hnil : store.filter (fun x => x.name = name) = [] := by
    rw [List.filter_eq_nil_iff]
    intro x hx
    have h2 := List.any_eq_false.mp hfresh x hx
    simpa using h2
  rw [hnil]
  simp

/-- C2: the spec claims that for every two successive upserts of a fresh
Concept name with confidences `c1` then `c2`, the final stored confidence is
`max c1 c2`.  This fails because `createConceptQuery` binds
`confidence || 0.8`: a supplied confidence of `0` is falsy in JS and is
replaced by the `0.8` default.  Upserting with `0.6` then `0` yields stored
confidence `0.8`, while `max 0.6 0 = 0.6`. -/
theorem claim2_counterexample :
    ((upsertConcept (upsertConcept [] "id1" "Infinite Banking" none none (some (ratL 3 5)))
        "id2" "Infinite Banking" none none (some 0)).map
      (fun c => c.confidence)) = [ratL 4 5]
    ∧ max (ratL 3 5) (0 : ℚ) = ratL 3 5
    ∧ (ratL 4 5 : ℚ) ≠ ratL 3 5 :=
  ⟨by decide, by decide, by decide⟩

/-- C2 (amended): upserting a fresh Concept name twice with *nonzero*
confidences `c1` then `c2` yields exactly one stored Concept with that name
and its final confidence is `max c1 c2` (for a zero confidence the JS
falsiness of `0` substitutes the `0.8` default, which is what the
counterexample exhibits). -/
theorem claim2_amended (store : List ConceptNode) (id1 id2 name : String)
    (d1 d2 : Option String) (src1 src2 : Option String) (c1 c2 : ℚ)
    (hfresh : store.any (fun x => x.name = name) = false)
    (h1 : c1 ≠ 0) (h2 : c2 ≠ 0) :
    (upsertConcept (upsertConcept store id1 name d1 src1 (some c1)) id2 name d2 src2
        (some c2)).countP (fun x => x.name = name) = 1
    ∧ ((upsertConcept (upsertConcept store id1 name d1 src1 (some c1)) id2 name d2 src2
        (some c2)).filter (fun x => x.name = name)).map (fun x => x.confidence)
      = [max c1 c2] := by
  have hfil := upsertConcept_twice_filter store id1 id2 name d1 d2 src1 src2
    (some c1) (some c2) hfresh
  constructor
  · rw [List.countP_eq_length_filter, hfil]
    rfl
  · rw [hfil]
    simp only [List.map_cons, List.map_nil, List.cons.injEq, and_true]
    rw [show jsConfOr08 (some c1) = c1 from by simp [jsConfOr08, h1]]
    rw [show jsConfOr08 (some c2) = c2 from by simp [jsConfOr08, h2]]
    rcases lt_or_le c1 c2 with h | h
    · rw [if_pos h, max_eq_right h.le]
    · rw [if_neg (not_lt.mpr h), max_eq_left h]

/-- Witness for `claim2_amended`: empty store, confidences `0.6` then `0.9`
(the example named by the spec) yield one entity with confidence `0.9`. -/
theorem claim2_witness :
    (upsertConcept (upsertConcept [] "id1" "Infinite Banking" none none (some (ratL 3 5)))
        "id2" "Infinite Banking" none none (some (ratL 9 10))).countP
      (fun x => x.name = "Infinite Banking") = 1
    ∧ ((upsertConcept (upsertConcept [] "id1" "Infinite Banking" none none (some (ratL 3 5)))
        "id2" "Infinite Banking" none none (some (ratL 9 10))).filter
        (fun x => x.name = "Infinite Banking")).map (fun x => x.confidence)
      = [max (ratL 3 5) (ratL 9 10)] :=
  claim2_amended [] "id1" "id2" "Infinite Banking" none none none none
    (ratL 3 5) (ratL 9 10) rfl (by decide) (by decide)

/-- C3: the spec claims that upserting the same Concept name with
descriptions `"desc"` then `""` retains the first non-empty description
`"desc"`.  This fails: `createConceptQuery` binds `description || name`, so
the empty string is replaced by the concept name *before* the query runs;
the bound parameter is then non-empty and the ON MATCH branch overwrites the
stored description with the name.  Upserting `"Neo4j"` with `"desc"` then
`""` leaves description `"Neo4j"`, not `"desc"`. -/
theorem claim3_counterexample :
    ((upsertConcept (upsertConcept [] "id1" "Neo4j" (some "desc") none none)
        "id2" "Neo4j" (some "") none none).map (fun c => c.description)) = ["Neo4j"]
    ∧ ("Neo4j" : String) ≠ "desc" :=
  ⟨by decide, by decide⟩

/-- C3 (amended): for a fresh Concept with non-empty name, upserting with
descriptions `""` then `d` (with `d` non-empty) yields final description
`d`, as the spec says; but upserting with `d` then `""` yields the concept
*name* as final description — the empty description is defaulted to the name
before binding, so the first non-empty description is not retained. -/
theorem claim3_amended (store : List ConceptNode) (id1 id2 id3 id4 name d : String)
    (src : Option String) (c : Option ℚ)
    (hfresh : store.any (fun x => x.name = name) = false)
    (hn : name ≠ "") (hd : d ≠ "") :
    ((upsertConcept (upsertConcept store id1 name (some "") src c) id2 name (some d) src
        c).filter (fun x => x.name = name)).map (fun x => x.description) = [d]
    ∧ ((upsertConcept (upsertConcept store id3 name (some d) src c) id4 name (some "") src
        c).filter (fun x => x.name = name)).map (fun x => x.description) = [name] := by
  constructor
  · rw [upsertConcept_twice_filter store id1 id2 name (some "") (some d) src src c c hfresh]
    simp only [List.map_cons, List.map_nil, List.cons.injEq, and_true]
    rw [show jsStrOr (some d) name = d from by simp [jsStrOr, hd]]
    rw [if_pos hd]
  · rw [upsertConcept_twice_filter store id3 id4 name (some d) (some "") src src c c hfresh]
    simp only [List.map_cons, List.map_nil, List.cons.injEq, and_true]
    rw [show jsStrOr (some "") name = name from by simp [jsStrOr]]
    rw [if_pos hn]

/-- Witness for `claim3_amended` at name `"Neo4j"`, description `"desc"`. -/
theorem claim3_witness :
    ((upsertConcept (upsertConcept [] "id1" "Neo4j" (some "") none none) "id2" "Neo4j"
        (some "desc") none none).filter (fun x => x.name = "Neo4j")).map
      (fun x => x.description) = ["desc"]
    ∧ ((upsertConcept (upsertConcept [] "id3" "Neo4j" (some "desc") none none) "id4" "Neo4j"
        (some "") none none).filter (fun x => x.name = "Neo4j")).map
      (fun x => x.description) = ["Neo4j"] :=
  claim3_amended [] "id1" "id2" "id3" "id4" "Neo4j" "desc" none none rfl
    (by decide) (by decide)

/-! ## Graph store model

The external Neo4j store is a finite graph.  Node property maps are
flattened into the optional properties that the embedded queries inspect;
`lastUpdated` abstracts `last_updated` as an epoch-day number. -/

structure GNode where
  id : String
  labels : List String
  name : Option String := none
  content : Option String := none
  statement : Option String := none
  confidence : Option ℚ := none
  source : Option String := none
  keywords : Option String := none
  lastUpdated : Option Int := none
deriving Repr, DecidableEq

structure GEdge where
  src : String
  typ : String
  tgt : String
deriving Repr, DecidableEq

structure Graph where
  nodes : List GNode
  edges : List GEdge
deriving Repr, DecidableEq

/-! ## Key-based sorting (ORDER BY) -/

/-- `ORDER BY key ASC` as a stable insertion sort. -/
def sortOn {α : Type} {κ : Type} [LinearOrder κ] (key : α → κ) (l : List α) : List α :=
  @List.insertionSort α (fun a b => key a ≤ key b)
    (fun a b => inferInstanceAs (Decidable (key a ≤ key b))) l

theorem sortOn_perm {α κ : Type} [LinearOrder κ] (key : α → κ) (l : List α) :
    (sortOn key l).Perm l :=
  List.perm_insertionSort _ l

theorem sortOn_sorted {α κ : Type} [LinearOrder κ] (key : α → κ) (l : List α) :
    List.Sorted (fun a b => key a ≤ key b) (sortOn key l) :=
  @List.sorted_insertionSort α (fun a b => key a ≤ key b)
    (fun a b => inferInstanceAs (Decidable (key a ≤ key b)))
    ⟨fun a b => le_total (key a) (key b)⟩
    ⟨fun _ _ _ h1 h2 => le_trans h1 h2⟩ l

theorem sortOn_length {α κ : Type} [LinearOrder κ] (key : α → κ) (l : List α) :
    (sortOn key l).length = l.length :=
  (sortOn_perm key l).length_eq

/-! ## Exact search (KnowledgeRetrieval.searchKnowledge, searchType "exact",
src/test-connection.js lines 81-95 and 233-277) -/

/-- Cypher `toLower(field) CONTAINS toLower($query)` under null semantics: a
missing property makes the predicate non-true. -/
def optContainsCI (field : Option String) (q : String) : Bool :=
  match field with
  | some s => strContainsSub (lowerStr s) (lowerStr q)
  | none => false

/-- The WHERE clause of the `exact` search template over a `:Knowledge` node. -/
def exactMatchB (n : GNode) (q : String) : Bool :=
  n.labels.contains "Knowledge" &&
    (optContainsCI n.content q || optContainsCI n.name q || optContainsCI n.statement q)

/-- The `CASE WHEN n.confidence IS NOT NULL THEN n.confidence ELSE 0.5 END`
relevance of the `exact` template. -/
def exactRelevance (n : GNode) : ℚ := n.confidence.getD (ratL 1 2)

/-- JS truthiness of an optional string property. -/
def jsTruthy (o : Option String) : Bool :=
  match o with
  | some s => decide (s ≠ "")
  | none => false

/-- Placeholder for `JSON.stringify(node)` in the display-content fallback
chain; it is reached only when `content`, `name` and `statement` are all
falsy, in which case its exact text is irrelevant to every claim. -/
def jsonPropsStr (n : GNode) : String := "\x7bid: " ++ n.id ++ "\x7d"

/-- The display-content selection of `searchKnowledge`
(`node.content || node.name || node.statement || JSON.stringify(node)`,
with JS truthiness). -/
def displayContent (n : GNode) : String :=
  if jsTruthy n.content then n.content.getD ""
  else if jsTruthy n.name then n.name.getD ""
  else if jsTruthy n.statement then n.statement.getD ""
  else jsonPropsStr n

/-- `node.confidence || 0.5` (JS falsiness: 0 also falls back). -/
def jsConfOr05 (c : Option ℚ) : ℚ :=
  match c with
  | some v => if v = 0 then ratL 1 2 else v
  | none => ratL 1 2

def nodeTypeOf (n : GNode) : String :=
  (n.labels.find? (fun l => l ≠ "Knowledge")).getD "Unknown"

structure SearchResult where
  id : String
  content : String
  contentType : String
  source : Option String
  confidence : ℚ
  relevance : ℚ
  relatedConcepts : List (String × String)
deriving Repr, DecidableEq

def mkSearchResult (n : GNode) (rel : ℚ) : SearchResult :=
  { id := n.id
    content := displayContent n
    contentType := nodeTypeOf n
    source := n.source
    confidence := jsConfOr05 n.confidence
    relevance := rel
    relatedConcepts := [] }

structure SearchResponse where
  success : Bool
  results : List SearchResult
  totalCount : Nat
  searchType : String
  includeContext : Bool
deriving Repr, DecidableEq

/-- `searchKnowledge` with `searchType = "exact"` and no context filters:
match `:Knowledge` nodes by case-insensitive containment over the three
display fields, score by stored confidence (0.5 when absent), sort by
relevance descending, truncate to `maxResults`, and project each record. -/
def searchKnowledgeExact (g : Graph) (q : String) (maxResults : Nat)
    (includeContext : Bool) : SearchResponse :=
  let rows := (g.nodes.filter (fun n => exactMatchB n q)).map (fun n => (n, exactRelevance n))
  let limited := (sortOn (fun p : GNode × ℚ => -p.2) rows).take maxResults
  { success := true
    results := limited.map (fun p => mkSearchResult p.1 p.2)
    totalCount := limited.length
    searchType := "exact"
    includeContext := includeContext }

theorem listInfixOf_nil_left [DecidableEq α] (l : List α) :
    listInfixOf ([] : List α) l = true := by
  cases l with
  | nil => rfl
  | cons b bs => simp [listInfixOf, listPrefixOf]

/-- C4: for every exact-mode SearchRequest, under the data-model invariant
that `:Knowledge` nodes carry their text in `content` only (no `name` or
`statement` property — which is how every write path of this repository
creates Knowledge-labelled nodes, and is the single-`primaryText` shape of
the data model), every returned result content contains the query
case-insensitively, and each result relevance equals the stored confidence
of the entity with that id, or 0.5 when the entity has no confidence. -/
theorem claim4_theorem (g : Graph) (q : String) (maxResults : Nat) (inc : Bool)
    (hwf : ∀ n ∈ g.nodes, n.labels.contains "Knowledge" = true →
      n.name = none ∧ n.statement = none) :
    (searchKnowledgeExact g q maxResults inc).results.all (fun r =>
      strContainsSub (lowerStr r.content) (lowerStr q)
        && g.nodes.any (fun n => n.id = r.id && decide (r.relevance = exactRelevance n)))
      = true := by
  rw [List.all_eq_true]
  intro r hr
  simp only [searchKnowledgeExact] at hr
  rcases List.mem_map.mp hr with ⟨p, hpmem, hpr⟩
  have hrows : p ∈ (g.nodes.filter (fun n => exactMatchB n q)).map
      (fun n => (n, exactRelevance n)) :=
    ((sortOn_perm (fun p : GNode × ℚ => -p.2) _).mem_iff).mp
      (List.take_subset _ _ hpmem)
  rcases List.mem_map.mp hrows with ⟨n, hnfil, hnp⟩
  rcases List.mem_filter.mp hnfil with ⟨hnmem, hmatch⟩
  subst hnp
  subst hpr
  have hmatch2 : n.labels.contains "Knowledge" = true ∧
      (optContainsCI n.content q || optContainsCI n.name q
        || optContainsCI n.statement q) = true := by
    simpa [exactMatchB, Bool.and_eq_true, Bool.or_eq_true] using hmatch
  rcases hwf n hnmem hmatch2.1 with ⟨hname, hstmt⟩
  have hcontent : optContainsCI n.content q = true := by
    have hdis : (optContainsCI n.content q = true ∨ optContainsCI n.name q = true)
        ∨ optContainsCI n.statement q = true := by
      simpa using hmatch2.2
    rcases hdis with (h | h) | h
    · exact h
    · simp [hname, optContainsCI] at h
    · simp [hstmt, optContainsCI] at h
  rw [Bool.and_eq_true]
  constructor
  · rcases hs : n.content with _ | s
    · rw [hs] at hcontent; cases hcontent
    · rw [hs] at hcontent
      simp only [optContainsCI] at hcontent
      by_cases hse : s = ""
      · subst hse
        have hq : (lowerStr q).data = [] := by
          have : listPrefixOf (lowerStr q).data ([] : List Char) = true := by
            simpa [strContainsSub, lowerStr, listInfixOf] using hcontent
          cases hqd : (lowerStr q).data with
          | nil => rfl
          | cons c cs => rw [hqd] at this; simp [listPrefixOf] at this
        show strContainsSub _ _ = true
        rw [strContainsSub, hq]
        exact listInfixOf_nil_left _
      · have hdisp : (mkSearchResult n (exactRelevance n)).content = s := by
          simp [mkSearchResult, displayContent, jsTruthy, hs, hse]
        rw [hdisp]
        exact hcontent
  · rw [List.any_eq_true]
    exact ⟨n, hnmem, by simp [mkSearchResult]⟩

/-- Sample store for the exact-search witness: one Knowledge node whose
content contains the query up to case. -/
def c4SampleGraph : Graph :=
  { nodes := [{ id := "k1", labels := ["Knowledge", "Note"],
                content := some "Hello World from the graph",
                confidence := some (ratL 9 10), source := some "unit" }]
    edges := [] }

/-- Witness for `claim4_theorem` on `c4SampleGraph` with query
`"hello world"`. -/
theorem claim4_witness :
    (searchKnowledgeExact c4SampleGraph "hello world" 10 true).results.all (fun r =>
      strContainsSub (lowerStr r.content) (lowerStr "hello world")
        && c4SampleGraph.nodes.any (fun n =>
            n.id = r.id && decide (r.relevance = exactRelevance n))) = true :=
  claim4_theorem c4SampleGraph "hello world" 10 true (by decide)

/-! ## Heuristic extractor (extractors/mcp-extractor.js, McpExtractor.processOutput)

Concept candidates are the matches of the global JS regex
`/\b[A-Z][a-zA-Z]*(?:\s+[A-Z][a-zA-Z]*)*\b/g`, deduplicated in first-seen
order, filtered against a stop-list and a minimum length, and capped at 10.
Fact candidates are the 20-200 character sentences (split on `.!?`, trimmed)
containing one of the fixed indicator phrases, capped at 5. -/

/-- Greedy extension across further capitalized words
(`(?:\s+[A-Z][a-zA-Z]*)*` with the trailing `\b`), with the only relevant
backtracking folded in: a repetition whose letter run is immediately
followed by another word character cannot be closed by a word boundary and
is dropped, ending the match at the previous boundary.  Returns the matched
extension and the remaining input. -/
def extendGroups : Nat → List Char → List Char × List Char
  | 0, l => ([], l)
  | fuel + 1, l =>
    let sp := l.takeWhile isSpaceChar
    let r1 := l.dropWhile isSpaceChar
    if sp.isEmpty then ([], l)
    else
      match r1 with
      | [] => ([], l)
      | c :: _ =>
        if isUpperAZ c then
          let run := r1.takeWhile isAsciiLetter
          let r2 := r1.dropWhile isAsciiLetter
          let endOk :=
            match r2 with
            | [] => true
            | d :: _ => !isWordChar d
          if endOk then
            let res := extendGroups fuel r2
            (sp ++ run ++ res.1, res.2)
          else ([], l)
        else ([], l)

/-- Left-to-right global scan of
`/\b[A-Z][a-zA-Z]*(?:\s+[A-Z][a-zA-Z]*)*\b/g`: `prevWord` records whether
the previous character was a word character (deciding the leading `\b`); a
start position whose letter run is followed by a word character (such as the
digit in `"Neo4j"`) cannot satisfy the trailing `\b` and is skipped. -/
def scanConcepts : Nat → Bool → List Char → List String
  | 0, _, _ => []
  | _, _, [] => []
  | fuel + 1, prevWord, c :: cs =>
    if !prevWord && isUpperAZ c then
      let run := (c :: cs).takeWhile isAsciiLetter
      let r1 := (c :: cs).dropWhile isAsciiLetter
      let endOk :=
        match r1 with
        | [] => true
        | d :: _ => !isWordChar d
      if endOk then
        let res := extendGroups (r1.length + 1) r1
        String.mk (run ++ res.1) :: scanConcepts fuel true res.2
      else
        scanConcepts fuel (isWordChar c) cs
    else
      scanConcepts fuel (isWordChar c) cs

/-- `rawOutput.match(conceptRegex) || []`. -/
def rawConcepts (s : String) : List String :=
  scanConcepts (s.data.length + 1) false s.data

def conceptStopwords : List String :=
  ["The", "A", "An", "This", "That", "These", "Those", "I", "You", "We", "They"]

/-- The concept-candidate pipeline of `processOutput` (lines 877-885):
`[...new Set(raw)].filter(c => !stopwords.includes(c) && c.length > 3).slice(0, 10)`. -/
def uniqueConcepts (s : String) : List String :=
  ((dedupFirst (rawConcepts s).length (rawConcepts s)).filter
    (fun c => !conceptStopwords.contains c && decide (3 < c.length))).take 10

/-- `rawOutput.split(/[.!?]/)`. -/
def splitSentences : List Char → List (List Char)
  | [] => [[]]
  | c :: cs =>
    if c = '.' || c = '!' || c = '?' then [] :: splitSentences cs
    else
      match splitSentences cs with
      | [] => [[c]]
      | t :: ts => (c :: t) :: ts

/-- `String.prototype.trim` on ASCII whitespace. -/
def trimChars (l : List Char) : List Char :=
  ((l.dropWhile isSpaceChar).reverse.dropWhile isSpaceChar).reverse

def factIndicators : List String :=
  ["is a", "are", "was", "were", "will be", "can be", "should be",
   "has", "have", "had", "contains", "includes", "consists of",
   "enables", "requires", "supports", "contradicts"]

/-- Sentences kept by the length filter (lines 915-917):
`.map(s => s.trim()).filter(s => s.length > 20 && s.length < 200)`. -/
def sentencesOf (s : String) : List String :=
  ((splitSentences s.data).map (fun l => String.mk (trimChars l))).filter
    (fun t => decide (20 < t.length) && decide (t.length < 200))

/-- The fact-candidate pipeline of `processOutput` (lines 919-923). -/
def potentialFacts (s : String) : List String :=
  ((sentencesOf s).filter (fun t =>
    factIndicators.any (fun ind => strContainsSub (lowerStr t) ind))).take 5

/-- C5: the spec claims extraction on
`"Neo4j is a Graph Database. It supports Cypher queries."` yields concept
candidates `["Neo4j", "Graph Database", "Cypher"]`.  This is false: the
concept regex `\b[A-Z][a-zA-Z]*\b` cannot match `"Neo4j"`, because its
character class has no digits and no word boundary exists between `o` and
`4`; the pipeline yields `["Graph Database", "Cypher"]`. -/
theorem claim5_counterexample :
    uniqueConcepts "Neo4j is a Graph Database. It supports Cypher queries."
      = ["Graph Database", "Cypher"]
    ∧ (["Graph Database", "Cypher"] : List String)
        ≠ ["Neo4j", "Graph Database", "Cypher"] :=
  ⟨by decide, by decide⟩

/-- C5 (amended): extraction on
`"Neo4j is a Graph Database. It supports Cypher queries."` yields concept
candidates `["Graph Database", "Cypher"]` in first-appearance order (the
alphanumeric token `"Neo4j"` is not matched by the concept regex), and both
sentences survive as fact candidates, at least one containing `"is a"`. -/
theorem claim5_amended :
    uniqueConcepts "Neo4j is a Graph Database. It supports Cypher queries."
      = ["Graph Database", "Cypher"]
    ∧ potentialFacts "Neo4j is a Graph Database. It supports Cypher queries."
        = ["Neo4j is a Graph Database", "It supports Cypher queries"]
    ∧ (potentialFacts "Neo4j is a Graph Database. It supports Cypher queries.").any
        (fun f => strContainsSub f "is a") = true :=
  ⟨by decide, by decide, by decide⟩

/-! ## Gap analysis (analyzeGapsQuery, utils/cypher-builder.js lines 169-236;
KnowledgeRetrieval.analyzeKnowledgeGaps, src/test-connection.js lines 513-573) -/

def isDomainNode (domain : String) (d : GNode) : Bool :=
  d.labels.contains "Domain" && d.name = some domain

/-- `(c)-[:BELONGS_TO]->(d)`. -/
def belongsToEdge (g : Graph) (c d : GNode) : Bool :=
  g.edges.any (fun e => e.src = c.id && e.typ = "BELONGS_TO" && e.tgt = d.id)

/-- `MATCH (d:Domain {name: $domain})<-[:BELONGS_TO]-(c:Concept)`. -/
def conceptsInDomain (g : Graph) (d : GNode) : List GNode :=
  g.nodes.filter (fun c => c.labels.contains "Concept" && belongsToEdge g c d)

/-- `(c)-[]-(c2)`: any edge, any type, either direction. -/
def anyEdgeBetween (g : Graph) (c c2 : GNode) : Bool :=
  g.edges.any (fun e => (e.src = c.id && e.tgt = c2.id) || (e.src = c2.id && e.tgt = c.id))

/-- The similarity CASE of the missing-connections template:
`apoc.text.jaroWinklerDistance(c.name, c2.name)` when both members carry a
`keywords` property, else the constant `0.5`.  `jw` abstracts the APOC
plugin function, which lives in the external store, not in this repository. -/
def mcSimilarity (jw : String → String → ℚ) (c c2 : GNode) : ℚ :=
  if c.keywords.isSome && c2.keywords.isSome then jw (c.name.getD "") (c2.name.getD "")
  else ratL 1 2

structure MCRow where
  concept1 : Option String
  concept2 : Option String
  similarity : ℚ
deriving Repr, DecidableEq

/-- The ordered-pair candidates of the missing-connections template: both
MATCH clauses range over the domain members, so each unordered pair appears
in both orientations. -/
def mcCandidates (g : Graph) (domain : String) (jw : String → String → ℚ) :
    List (GNode × GNode × ℚ) :=
  (g.nodes.filter (isDomainNode domain)).flatMap (fun d =>
    (conceptsInDomain g d).flatMap (fun c =>
      (conceptsInDomain g d).filterMap (fun c2 =>
        if decide (c ≠ c2) && !anyEdgeBetween g c c2 then
          some (c, c2, mcSimilarity jw c c2)
        else none)))

/-- The missing-connections analysis: keep candidates with
`similarity > $threshold`, `ORDER BY similarity DESC`, `LIMIT 20`, project
`(c.name, c2.name, similarity)`. -/
def missingConnections (g : Graph) (domain : String) (threshold : ℚ)
    (jw : String → String → ℚ) : List MCRow :=
  ((sortOn (fun t : GNode × GNode × ℚ => -t.2.2)
      ((mcCandidates g domain jw).filter (fun t => decide (threshold < t.2.2)))).take 20).map
    (fun t => ⟨t.1.name, t.2.1.name, t.2.2⟩)

/-- `size((c)-[]->())`. -/
def outDegree (g : Graph) (c : GNode) : Nat :=
  (g.edges.filter (fun e => e.src = c.id)).length

/-- `size((c)<-[]-())`. -/
def inDegree (g : Graph) (c : GNode) : Nat :=
  (g.edges.filter (fun e => e.tgt = c.id)).length

/-- `confidence < $threshold` under Cypher null semantics: a null confidence
never satisfies the comparison. -/
def confLtB (c : Option ℚ) (t : ℚ) : Bool :=
  match c with
  | some v => decide (v < t)
  | none => false

structure WRow where
  concept : Option String
  connectionCount : Nat
  confidence : Option ℚ
  reason : String
deriving Repr, DecidableEq

/-- `ORDER BY connectionCount ASC, confidence ASC` key; Neo4j sorts null
confidence last in ascending order. -/
def wKey (r : WRow) : ℕ ×ₗ (ℕ ×ₗ ℚ) :=
  toLex (r.connectionCount,
    toLex (match r.confidence with
           | some v => ((0 : ℕ), v)
           | none => ((1 : ℕ), (0 : ℚ))))

/-- The weak-areas analysis: every domain member with
`outDegree + inDegree < 3 OR confidence < $threshold`, sorted ascending by
connection count then confidence, capped at 20, tagged `weak_connections`. -/
def weakAreas (g : Graph) (domain : String) (threshold : ℚ) : List WRow :=
  let members := (g.nodes.filter (isDomainNode domain)).flatMap (fun d => conceptsInDomain g d)
  let cand := members.filterMap (fun c =>
    let cc := outDegree g c + inDegree g c
    if decide (cc < 3) || confLtB c.confidence threshold then
      some (⟨c.name, cc, c.confidence, "weak_connections"⟩ : WRow)
    else none)
  (sortOn wKey cand).take 20

structure ORow where
  concept : Option String
  source : Option String
  daysSinceUpdate : Int
  confidence : Option ℚ
deriving Repr, DecidableEq

/-- The outdated-content analysis: members whose `last_updated` lies more
than 90 days before `now`, sorted stalest first, capped at 20. -/
def outdatedContent (g : Graph) (domain : String) (now : Int) : List ORow :=
  let members := (g.nodes.filter (isDomainNode domain)).flatMap (fun d => conceptsInDomain g d)
  let cand := members.filterMap (fun c =>
    match c.lastUpdated with
    | some lu =>
      if decide (90 < now - lu) then
        some (⟨c.name, c.source, now - lu, c.confidence⟩ : ORow)
      else none
    | none => none)
  (sortOn (fun r : ORow => -r.daysSinceUpdate) cand).take 20

inductive GapKind where
  | missingConnections
  | weakAreas
  | outdatedContent
deriving Repr, DecidableEq

/-- The dispatch of `analyzeGapsQuery`: the three known analysis types
select a template; any other type throws
`Unknown analysis type: ${analysisType}` before any query text exists. -/
def analyzeGapsQueryKind (analysisType : String) : Except String GapKind :=
  if analysisType = "missing-connections" then .ok .missingConnections
  else if analysisType = "weak-areas" then .ok .weakAreas
  else if analysisType = "outdated-content" then .ok .outdatedContent
  else .error ("Unknown analysis type: " ++ analysisType)

inductive GapRow where
  | mc (row : MCRow)
  | weak (row : WRow)
  | outdated (row : ORow)
deriving Repr, DecidableEq

structure GapsResult where
  success : Bool
  domain : String
  analysisType : String
  threshold : ℚ
  results : List GapRow
  count : Nat
  error : Option String
deriving Repr, DecidableEq

/-- `KnowledgeRetrieval.analyzeKnowledgeGaps`: the builder runs inside the
try block, so its thrown error is caught and converted to
`{success:false, error}` with no query issued; otherwise the selected
template runs once and its records are mapped.  The second component lists
the queries issued to the store, by template. -/
def analyzeKnowledgeGaps (g : Graph) (domain analysisType : String) (threshold : ℚ)
    (jw : String → String → ℚ) (now : Int) : GapsResult × List GapKind :=
  match analyzeGapsQueryKind analysisType with
  | .error e =>
    ({ success := false, domain := domain, analysisType := analysisType,
       threshold := threshold, results := [], count := 0, error := some e }, [])
  | .ok k =>
    let rows : List GapRow :=
      match k with
      | .missingConnections => (missingConnections g domain threshold jw).map GapRow.mc
      | .weakAreas => (weakAreas g domain threshold).map GapRow.weak
      | .outdatedContent => (outdatedContent g domain now).map GapRow.outdated
    ({ success := true, domain := domain, analysisType := analysisType,
       threshold := threshold, results := rows, count := rows.length, error := none }, [k])

/-- Store for the missing-connections scenario of the spec: domain
`"Financial Planning"` with members `"Infinite Banking"` (0.9) and
`"Tax Planning"` (0.8) and no edge between them. -/
def c6Graph : Graph :=
  { nodes := [
      { id := "d1", labels := ["Domain"], name := some "Financial Planning" },
      { id := "c1", labels := ["Concept"], name := some "Infinite Banking",
        confidence := some (ratL 9 10) },
      { id := "c2", labels := ["Concept"], name := some "Tax Planning",
        confidence := some (ratL 4 5) }]
    edges := [⟨"c1", "BELONGS_TO", "d1"⟩, ⟨"c2", "BELONGS_TO", "d1"⟩] }

/-- C6: the spec claims the missing-connections report lists each
edge-less, above-threshold unordered pair of domain members exactly once.
This is false: the template matches ordered pairs `(c, c2)` with `c <> c2`,
so each unordered pair is reported twice, once per orientation.  On the
spec's own scenario (threshold 0.1, no keywords so similarity is the
constant 0.5) the single unordered pair produces two rows. -/
theorem claim6_counterexample :
    missingConnections c6Graph "Financial Planning" (ratL 1 10) (fun _ _ => 0)
      = [⟨some "Infinite Banking", some "Tax Planning", ratL 1 2⟩,
         ⟨some "Tax Planning", some "Infinite Banking", ratL 1 2⟩]
    ∧ (missingConnections c6Graph "Financial Planning" (ratL 1 10)
        (fun _ _ => 0)).length ≠ 1 :=
  ⟨by decide, by decide⟩

/-- C6 (amended): the missing-connections report consists of the *ordered*
pairs of distinct domain members with no direct edge whose similarity
(jaroWinkler of the names when both carry keywords, else the constant 0.5)
strictly exceeds the threshold — so each qualifying unordered pair appears
once per orientation — sorted descending by similarity and capped at 20; in
particular two edge-less keyword-less members are reported (twice) whenever
threshold < 0.5, e.g. at threshold 0.1. -/
theorem claim6_amended (g : Graph) (domain : String) (threshold : ℚ)
    (jw : String → String → ℚ) :
    (missingConnections g domain threshold jw).length ≤ 20
    ∧ List.Sorted (fun a b : MCRow => b.similarity ≤ a.similarity)
        (missingConnections g domain threshold jw)
    ∧ (missingConnections g domain threshold jw).all (fun r =>
        decide (threshold < r.similarity)
          && g.nodes.any (fun d => isDomainNode domain d
              && (conceptsInDomain g d).any (fun c =>
                  (conceptsInDomain g d).any (fun c2 =>
                    decide (c ≠ c2) && !anyEdgeBetween g c c2
                      && decide (r.concept1 = c.name) && decide (r.concept2 = c2.name)
                      && decide (r.similarity = mcSimilarity jw c c2))))) = true := by
  refine ⟨?_, ?_, ?_⟩
  · rw [missingConnections, List.length_map, List.length_take]
    exact min_le_left _ _
  · rw [missingConnections]
    apply List.pairwise_map.mpr
    apply List.Pairwise.imp (S := fun a b : GNode × GNode × ℚ => b.2.2 ≤ a.2.2)
      (fun hab => neg_le_neg_iff.mp hab)
    exact List.Pairwise.sublist (List.take_sublist _ _)
      (sortOn_sorted (fun t : GNode × GNode × ℚ => -t.2.2) _)
  · rw [List.all_eq_true]
    intro r hr
    rcases List.mem_map.mp hr with ⟨t, ht, rfl⟩
    have ht2 : t ∈ (mcCandidates g domain jw).filter (fun t => decide (threshold < t.2.2)) :=
      ((sortOn_perm (fun t : GNode × GNode × ℚ => -t.2.2) _).mem_iff).mp
        (List.take_subset _ _ ht)
    rcases List.mem_filter.mp ht2 with ⟨htc, hthr⟩
    rcases List.mem_flatMap.mp htc with ⟨d, hd, hdc⟩
    rcases List.mem_flatMap.mp hdc with ⟨c, hc, hcc⟩
    rcases List.mem_filterMap.mp hcc with ⟨c2, hc2, heq⟩
    rcases hcnd : (decide (c ≠ c2) && !anyEdgeBetween g c c2) with _ | _
    · rw [hcnd] at heq; simp at heq
    · rw [hcnd] at heq
      simp only [if_true] at heq
      have ht3 : t = (c, c2, mcSimilarity jw c c2) := (Option.some_inj.mp heq).symm
      subst ht3
      rcases List.mem_filter.mp hd with ⟨hdmem, hdp⟩
      rw [Bool.and_eq_true] at hcnd
      rw [Bool.and_eq_true]
      constructor
      · simpa using hthr
      · rw [List.any_eq_true]
        refine ⟨d, hdmem, ?_⟩
        rw [Bool.and_eq_true]
        refine ⟨hdp, ?_⟩
        rw [List.any_eq_true]
        refine ⟨c, hc, ?_⟩
        rw [List.any_eq_true]
        refine ⟨c2, hc2, ?_⟩
        simp [hcnd.1, hcnd.2]

/-- C8: the weak-areas analysis reports exactly the domain members with
`connectionCount < 3` or `confidence < threshold` (null confidence never
satisfies the comparison) — in particular it never reports a member with
`connectionCount >= 3` and `confidence >= threshold` — each row carries the
member name, its `outDegree + inDegree`, its stored confidence and reason
`weak_connections`; results are sorted ascending by connection count then
confidence (nulls last) and capped at 20. -/
theorem claim8_theorem (g : Graph) (domain : String) (threshold : ℚ) :
    (weakAreas g domain threshold).length ≤ 20
    ∧ List.Sorted (fun a b : WRow => wKey a ≤ wKey b) (weakAreas g domain threshold)
    ∧ (weakAreas g domain threshold).all (fun r =>
        (decide (r.connectionCount < 3) || confLtB r.confidence threshold)
          && decide (r.reason = "weak_connections")
          && g.nodes.any (fun d => isDomainNode domain d
              && (conceptsInDomain g d).any (fun c =>
                  decide (r.concept = c.name)
                    && decide (r.connectionCount = outDegree g c + inDegree g c)
                    && decide (r.confidence = c.confidence)))) = true := by
  refine ⟨?_, ?_, ?_⟩
  · rw [weakAreas]
    simp only [List.length_take]
    exact min_le_left _ _
  · rw [weakAreas]
    exact List.Pairwise.sublist (List.take_sublist _ _) (sortOn_sorted wKey _)
  · rw [List.all_eq_true]
    intro r hr
    rw [weakAreas] at hr
    have hr2 : r ∈ ((g.nodes.filter (isDomainNode domain)).flatMap
        (fun d => conceptsInDomain g d)).filterMap (fun c =>
          let cc := outDegree g c + inDegree g c
          if decide (cc < 3) || confLtB c.confidence threshold then
            some (⟨c.name, cc, c.confidence, "weak_connections"⟩ : WRow)
          else none) :=
      ((sortOn_perm wKey _).mem_iff).mp (List.take_subset _ _ hr)
    rcases List.mem_filterMap.mp hr2 with ⟨c, hcmem, heq⟩
    rcases List.mem_flatMap.mp hcmem with ⟨d, hd, hc⟩
    rcases List.mem_filter.mp hd with ⟨hdmem, hdp⟩
    simp only at heq
    rcases hcnd : (decide (outDegree g c + inDegree g c < 3)
        || confLtB c.confidence threshold) with _ | _
    · rw [hcnd] at heq; simp at heq
    · rw [hcnd] at heq
      simp only [if_true] at heq
      have hr3 : r = ⟨c.name, outDegree g c + inDegree g c, c.confidence,
          "weak_connections"⟩ := (Option.some_inj.mp heq).symm
      subst hr3
      rw [Bool.and_eq_true, Bool.and_eq_true]
      refine ⟨⟨by simpa using hcnd, by simp⟩, ?_⟩
      rw [List.any_eq_true]
      refine ⟨d, hdmem, ?_⟩
      rw [Bool.and_eq_true]
      refine ⟨hdp, ?_⟩
      rw [List.any_eq_true]
      exact ⟨c, hc, by simp⟩

/-- C9: for every GapAnalysisRequest whose analysisType is not one of the
three supported templates, `analyzeGapsQuery` throws before any query is
issued; `analyzeKnowledgeGaps` catches the throw and surfaces
`{success:false, error}` with an empty issued-query list. -/
theorem claim9_theorem (g : Graph) (domain analysisType : String) (threshold : ℚ)
    (jw : String → String → ℚ) (now : Int)
    (h1 : analysisType ≠ "missing-connections")
    (h2 : analysisType ≠ "weak-areas")
    (h3 : analysisType ≠ "outdated-content") :
    (analyzeKnowledgeGaps g domain analysisType threshold jw now).1.success = false
    ∧ (analyzeKnowledgeGaps g domain analysisType threshold jw now).1.error
        = some ("Unknown analysis type: " ++ analysisType)
    ∧ (analyzeKnowledgeGaps g domain analysisType threshold jw now).1.results = []
    ∧ (analyzeKnowledgeGaps g domain analysisType threshold jw now).2 = [] := by
  simp [analyzeKnowledgeGaps, analyzeGapsQueryKind, h1, h2, h3]

/-- Witness for `claim9_theorem` at the unknown analysis type `"bogus"`. -/
theorem claim9_witness :
    (analyzeKnowledgeGaps ⟨[], []⟩ "Technology" "bogus" (ratL 7 10)
        (fun _ _ => 0) 0).1.success = false
    ∧ (analyzeKnowledgeGaps ⟨[], []⟩ "Technology" "bogus" (ratL 7 10)
        (fun _ _ => 0) 0).1.error = some ("Unknown analysis type: " ++ "bogus")
    ∧ (analyzeKnowledgeGaps ⟨[], []⟩ "Technology" "bogus" (ratL 7 10)
        (fun _ _ => 0) 0).1.results = []
    ∧ (analyzeKnowledgeGaps ⟨[], []⟩ "Technology" "bogus" (ratL 7 10)
        (fun _ _ => 0) 0).2 = [] :=
  claim9_theorem ⟨[], []⟩ "Technology" "bogus" (ratL 7 10) (fun _ _ => 0) 0
    (by decide) (by decide) (by decide)

/-! ## Bounded traversal: variable-length relationship patterns

A step traverses one stored relationship in either direction (the patterns
`-[r*1..n]-` are undirected); a trail never reuses a relationship, matching
Cypher's relationship-uniqueness for variable-length paths.  Relationships
are identified by their index in the edge list so that parallel edges stay
distinct. -/

structure Step where
  idx : Nat
  edge : GEdge
  forward : Bool
deriving Repr, DecidableEq

def stepEnd (s : Step) : String := if s.forward then s.edge.tgt else s.edge.src

def stepTypeOk (types : List String) (e : GEdge) : Bool :=
  types.isEmpty || types.contains e.typ

/-- Steps available from node id `cur` that respect the type filter and do
not reuse a relationship. -/
def incidentSteps (g : Graph) (types : List String) (cur : String)
    (used : List Nat) : List Step :=
  g.edges.enum.flatMap (fun p =>
    if stepTypeOk types p.2 && !used.contains p.1 then
      (if p.2.src = cur then [⟨p.1, p.2, true⟩] else [])
        ++ (if p.2.tgt = cur then [⟨p.1, p.2, false⟩] else [])
    else [])

/-- All relationship-distinct walks of length `1..fuel` starting at `cur`:
the Cypher variable-length pattern `-[*1..fuel]-`. -/
def trailsFrom (g : Graph) (types : List String) :
    Nat → String → List Nat → List (List Step)
  | 0, _, _ => []
  | fuel + 1, cur, used =>
    (incidentSteps g types cur used).flatMap (fun st =>
      [st] :: (trailsFrom g types fuel (stepEnd st) (st.idx :: used)).map (st :: ·))

def trailEnd (start : String) : List Step → String
  | [] => start
  | st :: rest => trailEnd (stepEnd st) rest

theorem trailsFrom_length_bounds (g : Graph) (types : List String) :
    ∀ (fuel : Nat) (cur : String) (used : List Nat) (t : List Step),
      t ∈ trailsFrom g types fuel cur used → 1 ≤ t.length ∧ t.length ≤ fuel := by
  intro fuel
  induction fuel with
  | zero => intro cur used t ht; cases ht
  | succ f ih =>
    intro cur used t ht
    rcases List.mem_flatMap.mp ht with ⟨st, _hst, htmem⟩
    rcases List.mem_cons.mp htmem with rfl | hmem
    · simp
    · rcases List.mem_map.mp hmem with ⟨t2, ht2, rfl⟩
      have hb := ih (stepEnd st) (st.idx :: used) t2 ht2
      constructor
      · simp
      · simpa [Nat.succ_le_succ] using Nat.succ_le_succ hb.2

/-! ## Path finder (findPathsQuery semantics plus
KnowledgeRetrieval.findKnowledgePaths, src/test-connection.js lines 431-506) -/

/-- `a.name = $conceptA OR a.name CONTAINS $conceptA`. -/
def nameMatches (n : GNode) (s : String) : Bool :=
  match n.name with
  | some nm => decide (nm = s) || strContainsSub nm s
  | none => false

/-- Endpoint resolution of `findPathsQuery`: by id when the identifier has
the UUID shape, otherwise by exact-or-substring match on the Concept name. -/
def resolveConcept (g : Graph) (s : String) : List GNode :=
  g.nodes.filter (fun n => n.labels.contains "Concept" &&
    (if isUuidStr s then decide (n.id = s) else nameMatches n s))

/-- All bounded trails between any resolved pair of endpoints (the record
set of the path query before ORDER BY/LIMIT). -/
def findPathCandidates (g : Graph) (a b : String) (maxPathLength : Nat)
    (types : List String) : List (List Step) :=
  (resolveConcept g a).flatMap (fun na =>
    (resolveConcept g b).flatMap (fun nb =>
      (trailsFrom g types maxPathLength na.id []).filter
        (fun t => trailEnd na.id t = nb.id)))

/-- `ORDER BY pathLength ASC LIMIT 10`. -/
def findPathRows (g : Graph) (a b : String) (maxPathLength : Nat)
    (types : List String) : List (List Step) :=
  (sortOn (fun t : List Step => t.length)
    (findPathCandidates g a b maxPathLength types)).take 10

structure PathRow where
  index : Nat
  pathLen : Nat
  steps : List Step
deriving Repr, DecidableEq

structure PathsResult where
  success : Bool
  found : Bool
  message : Option String
  error : Option String
  paths : List PathRow
  count : Nat
  shortestPathLength : Nat
deriving Repr, DecidableEq

/-- Whether the text built by `findPathsQueryText` is well-formed Cypher.
For a non-UUID `conceptA`, `matchA` is
`(a:Concept) WHERE a.name = $conceptA OR a.name CONTAINS $conceptA` and the
template continues `, ${matchB}`: a WHERE sub-clause followed by a comma
and a further pattern inside a MATCH pattern list is rejected by every
Cypher grammar (WHERE may only follow the whole pattern list).  When
`conceptA` has the UUID shape, `matchA` is a plain pattern and `matchB` is
either a plain pattern or a single trailing WHERE over the pattern list —
both well-formed. -/
def findPathsQueryParses (conceptA : String) : Bool := isUuidStr conceptA

/-- Stands for the parse-error message the Neo4j driver reports for the
ill-formed query; the exact text is produced by the external store, so only
its presence is meaningful. -/
def storeParseErrorMsg : String :=
  "Invalid input: WHERE sub-clause cannot be followed by a further MATCH pattern"

/-- `KnowledgeRetrieval.findKnowledgePaths`.  When the built query does not
parse (non-UUID `conceptA`), `session.run` rejects and the catch returns
`{success:false, error}`.  Otherwise an empty record set yields the
expected `{success:true, found:false, message}`, and a nonempty one yields
paths numbered from 1 with `shortestPathLength = Math.min(...lengths)`. -/
def findKnowledgePaths (g : Graph) (conceptA conceptB : String)
    (maxPathLength : Nat) (relationshipConstraints : List String) : PathsResult :=
  if findPathsQueryParses conceptA then
    if (findPathRows g conceptA conceptB maxPathLength relationshipConstraints).isEmpty then
      { success := true, found := false
        message := some ("No paths found between \"" ++ conceptA ++ "\" and \"" ++ conceptB
          ++ "\" within " ++ toString maxPathLength ++ " steps.")
        error := none, paths := [], count := 0, shortestPathLength := 0 }
    else
      { success := true, found := true, message := none, error := none
        paths := (findPathRows g conceptA conceptB maxPathLength
            relationshipConstraints).enum.map (fun p => (⟨p.1 + 1, p.2.length, p.2⟩ : PathRow))
        count := ((findPathRows g conceptA conceptB maxPathLength
            relationshipConstraints).enum.map (fun p => (⟨p.1 + 1, p.2.length, p.2⟩ : PathRow))).length
        shortestPathLength := minList (((findPathRows g conceptA conceptB maxPathLength
            relationshipConstraints).enum.map (fun p => (⟨p.1 + 1, p.2.length, p.2⟩ : PathRow))).map
          (fun p => p.pathLen)) }
  else
    { success := false, found := false, message := none
      error := some storeParseErrorMsg, paths := [], count := 0, shortestPathLength := 0 }

theorem mem_snd_of_mem_enum {α : Type} {x : Nat × α} {l : List α}
    (h : x ∈ l.enum) : x.2 ∈ l := by
  have h2 := List.mem_map_of_mem Prod.snd h
  rwa [List.enum_map_snd] at h2

theorem findPathRows_subset_candidates (g : Graph) (a b : String)
    (maxPathLength : Nat) (types : List String) {t : List Step}
    (h : t ∈ findPathRows g a b maxPathLength types) :
    t ∈ findPathCandidates g a b maxPathLength types :=
  ((sortOn_perm (fun t : List Step => t.length) _).mem_iff).mp
    (List.take_subset _ _ h)

/-- Two edge-less Concepts, addressed by name. -/
def c7Graph : Graph :=
  { nodes := [
      { id := "a1", labels := ["Concept"], name := some "Infinite Banking",
        confidence := some (ratL 9 10) },
      { id := "b1", labels := ["Concept"], name := some "Tax Planning",
        confidence := some (ratL 4 5) }]
    edges := [] }

/-- C7: the spec claims that when either endpoint cannot be resolved or no
path exists within `maxPathLength` hops, the path finder returns
`{success:true, found:false, message}` rather than an error.  This is false
for name endpoints: for a non-UUID `conceptA` the built query reads
`MATCH (a:Concept) WHERE ..., (b:Concept) ...` — a WHERE sub-clause
followed by a comma inside the MATCH pattern list, which no Cypher grammar
accepts — so the store rejects the query and the catch returns
`{success:false, error}`, even though both concepts exist and merely lack a
connecting path within one hop. -/
theorem claim7_counterexample :
    findPathsQueryParses "Infinite Banking" = false
    ∧ (resolveConcept c7Graph "Infinite Banking").length = 1
    ∧ (resolveConcept c7Graph "Tax Planning").length = 1
    ∧ findPathCandidates c7Graph "Infinite Banking" "Tax Planning" 1 [] = []
    ∧ (findKnowledgePaths c7Graph "Infinite Banking" "Tax Planning" 1 []).success = false
    ∧ (findKnowledgePaths c7Graph "Infinite Banking" "Tax Planning" 1
        []).error.isSome = true :=
  ⟨by decide, by decide, by decide, by decide, by decide, by decide⟩

/-- C7 (amended): when `conceptA` is not UUID-shaped the built query is not
valid Cypher, so `findKnowledgePaths` returns `{success:false, error}`
regardless of the store contents.  When `conceptA` is UUID-shaped the
original claim holds: no returned path is shorter than 1 hop or longer than
`maxPathLength`; when paths are found, `shortestPathLength` (computed as
`Math.min` over the lengths) is a lower bound of all returned lengths and
attained by one of them; and an unresolved endpoint or the absence of any
bounded trail yields `{success:true, found:false, message}`. -/
theorem claim7_amended (g : Graph) (a b : String) (maxPathLength : Nat)
    (cons : List String) :
    (findPathsQueryParses a = false →
      ((findKnowledgePaths g a b maxPathLength cons).success = false
        ∧ (findKnowledgePaths g a b maxPathLength cons).error.isSome = true
        ∧ (findKnowledgePaths g a b maxPathLength cons).found = false
        ∧ (findKnowledgePaths g a b maxPathLength cons).paths = []))
    ∧ (findPathsQueryParses a = true →
      (((findKnowledgePaths g a b maxPathLength cons).paths.all (fun p =>
          decide (1 ≤ p.pathLen) && decide (p.pathLen ≤ maxPathLength)) = true)
      ∧ ((findKnowledgePaths g a b maxPathLength cons).found = false
          ∨ ((findKnowledgePaths g a b maxPathLength cons).paths.all (fun p =>
                decide ((findKnowledgePaths g a b maxPathLength cons).shortestPathLength
                  ≤ p.pathLen)) = true
            ∧ (findKnowledgePaths g a b maxPathLength cons).paths.any (fun p =>
                decide (p.pathLen
                  = (findKnowledgePaths g a b maxPathLength cons).shortestPathLength)) = true))
      ∧ ((resolveConcept g a = [] ∨ resolveConcept g b = []
            ∨ findPathCandidates g a b maxPathLength cons = []) →
          ((findKnowledgePaths g a b maxPathLength cons).success = true
            ∧ (findKnowledgePaths g a b maxPathLength cons).found = false
            ∧ (findKnowledgePaths g a b maxPathLength cons).message.isSome = true)))) := by
  constructor
  · intro hA
    have hres : findKnowledgePaths g a b maxPathLength cons =
        { success := false, found := false, message := none
          error := some storeParseErrorMsg, paths := [], count := 0,
          shortestPathLength := 0 } := by
      unfold findKnowledgePaths
      rw [hA]
      simp
    rw [hres]
    exact ⟨rfl, rfl, rfl, rfl⟩
  · intro hA
    rcases hrow : (findPathRows g a b maxPathLength cons).isEmpty with _ | _
    · -- records present
      have hres : findKnowledgePaths g a b maxPathLength cons =
          { success := true, found := true, message := none, error := none
            paths := (findPathRows g a b maxPathLength cons).enum.map
              (fun p => (⟨p.1 + 1, p.2.length, p.2⟩ : PathRow))
            count := ((findPathRows g a b maxPathLength cons).enum.map
              (fun p => (⟨p.1 + 1, p.2.length, p.2⟩ : PathRow))).length
            shortestPathLength := minList (((findPathRows g a b maxPathLength cons).enum.map
              (fun p => (⟨p.1 + 1, p.2.length, p.2⟩ : PathRow))).map (fun p => p.pathLen)) } := by
        unfold findKnowledgePaths
        rw [hA, hrow]
        simp
      have hnil : findPathRows g a b maxPathLength cons ≠ [] := by
        intro hcon
        rw [hcon] at hrow
        simp at hrow
      refine ⟨?_, ?_, ?_⟩
      · rw [hres]
        rw [List.all_eq_true]
        intro p hp
        rcases List.mem_map.mp hp with ⟨pr, hpr, rfl⟩
        have ht : pr.2 ∈ findPathCandidates g a b maxPathLength cons :=
          findPathRows_subset_candidates g a b maxPathLength cons
            (mem_snd_of_mem_enum hpr)
        rcases List.mem_flatMap.mp ht with ⟨na, _hna, ht2⟩
        rcases List.mem_flatMap.mp ht2 with ⟨nb, _hnb, ht3⟩
        rcases List.mem_filter.mp ht3 with ⟨htr, _hend⟩
        have hb := trailsFrom_length_bounds g cons maxPathLength na.id [] pr.2 htr
        simp only [Bool.and_eq_true, decide_eq_true_eq]
        exact ⟨hb.1, hb.2⟩
      · right
        rw [hres]
        constructor
        · rw [List.all_eq_true]
          intro p hp
          simp only [decide_eq_true_eq]
          exact minList_le_of_mem (List.mem_map_of_mem (fun p => p.pathLen) hp)
        · rw [List.any_eq_true]
          have hPne : ((findPathRows g a b maxPathLength cons).enum.map
              (fun p => (⟨p.1 + 1, p.2.length, p.2⟩ : PathRow))) ≠ [] := by
            rw [Ne, List.map_eq_nil_iff, List.enum_eq_nil]
            exact hnil
          have hmem := minList_mem (l := ((findPathRows g a b maxPathLength cons).enum.map
              (fun p => (⟨p.1 + 1, p.2.length, p.2⟩ : PathRow))).map (fun p => p.pathLen))
            (by rw [Ne, List.map_eq_nil_iff]; exact hPne)
          rcases List.mem_map.mp hmem with ⟨p, hp, hplen⟩
          exact ⟨p, hp, by simp [hplen]⟩
      · intro h
        exfalso
        have hcand : findPathCandidates g a b maxPathLength cons = [] := by
          rcases h with h | h | h
          · simp [findPathCandidates, h]
          · simp [findPathCandidates, h]
          · exact h
        have : findPathRows g a b maxPathLength cons = [] := by
          simp [findPathRows, hcand, sortOn, List.insertionSort]
        exact hnil this
    · -- no records: the expected negative result
      have hres : findKnowledgePaths g a b maxPathLength cons =
          { success := true, found := false
            message := some ("No paths found between \"" ++ a ++ "\" and \"" ++ b
              ++ "\" within " ++ toString maxPathLength ++ " steps.")
            error := none, paths := [], count := 0, shortestPathLength := 0 } := by
        unfold findKnowledgePaths
        rw [hA, hrow]
        simp
      refine ⟨?_, ?_, ?_⟩
      · rw [hres]; rfl
      · left; rw [hres]
      · intro _
        rw [hres]
        exact ⟨rfl, rfl, rfl⟩

def c7UuidA : String := "aaaaaaaa-aaaa-aaaa-aaaa-aaaaaaaaaaaa"

def c7UuidB : String := "bbbbbbbb-bbbb-bbbb-bbbb-bbbbbbbbbbbb"

/-- Two edge-less Concepts, addressed by UUID-shaped ids, for the
well-formed branch of the path-finder witness. -/
def c7GraphU : Graph :=
  { nodes := [
      { id := c7UuidA, labels := ["Concept"], name := some "Infinite Banking",
        confidence := some (ratL 9 10) },
      { id := c7UuidB, labels := ["Concept"], name := some "Tax Planning",
        confidence := some (ratL 4 5) }]
    edges := [] }

/-- Witness for `claim7_amended`: the error branch at name endpoints in
`c7Graph`, and the well-formed not-found branch at UUID endpoints in
`c7GraphU` with the no-trail antecedent discharged concretely. -/
theorem claim7_amended_witness :
    (findPathsQueryParses "Infinite Banking" = false
      ∧ ((findKnowledgePaths c7Graph "Infinite Banking" "Tax Planning" 1 []).success = false
        ∧ (findKnowledgePaths c7Graph "Infinite Banking" "Tax Planning" 1
            []).error.isSome = true
        ∧ (findKnowledgePaths c7Graph "Infinite Banking" "Tax Planning" 1 []).found = false
        ∧ (findKnowledgePaths c7Graph "Infinite Banking" "Tax Planning" 1 []).paths = []))
    ∧ (findPathsQueryParses c7UuidA = true
      ∧ findPathCandidates c7GraphU c7UuidA c7UuidB 1 [] = []
      ∧ ((findKnowledgePaths c7GraphU c7UuidA c7UuidB 1 []).success = true
        ∧ (findKnowledgePaths c7GraphU c7UuidA c7UuidB 1 []).found = false
        ∧ (findKnowledgePaths c7GraphU c7UuidA c7UuidB 1 []).message.isSome = true)) :=
  ⟨⟨by decide, (claim7_amended c7Graph "Infinite Banking" "Tax Planning" 1 []).1 (by decide)⟩,
   ⟨by decide, by decide,
    ((claim7_amended c7GraphU c7UuidA c7UuidB 1 []).2 (by decide)).2.2
      (Or.inr (Or.inr (by decide)))⟩⟩

/-! ## Graph exploration (KnowledgeRetrieval.exploreKnowledgeGraph,
src/test-connection.js lines 293-424) -/

/-- Case-sensitive `field CONTAINS $startConcept` under null semantics. -/
def optContains (f : Option String) (s : String) : Bool :=
  match f with
  | some v => strContainsSub v s
  | none => false

/-- Start-entity resolution: by id for UUID-shaped identifiers, else exact
or substring match on name, content or statement of a `:Knowledge` node. -/
def resolveStart (g : Graph) (s : String) : List GNode :=
  g.nodes.filter (fun n => n.labels.contains "Knowledge" &&
    (if isUuidStr s then decide (n.id = s)
     else (decide (n.name = some s) || decide (n.content = some s)
        || decide (n.statement = some s) || optContains n.name s
        || optContains n.content s || optContains n.statement s)))

def findNode (g : Graph) (id : String) : Option GNode :=
  g.nodes.find? (fun n => n.id = id)

structure ConnEntry where
  node : GNode
  depth : Nat
  relationships : List String
deriving Repr, DecidableEq

/-- The `{node, depth, relationships}` records produced for one start node:
every bounded trail from it that ends at a `:Knowledge` node, projected to
the end node, the path length, and the types of the traversed relationships
whose stored source node is the start node
(`[rel in rels WHERE startNode(rel) = start | type(rel)]`). -/
def exploreConns (g : Graph) (types : List String) (maxDepth : Nat)
    (s : GNode) : List ConnEntry :=
  (trailsFrom g types maxDepth s.id []).filterMap (fun t =>
    match findNode g (trailEnd s.id t) with
    | some n =>
      if n.labels.contains "Knowledge" then
        some ⟨n, t.length,
          t.filterMap (fun st => if st.edge.src = s.id then some st.edge.typ else none)⟩
      else none
    | none => none)

/-- One aggregated record per resolved start node that has at least one
connection (the aggregation groups by `start`, so a start without any
matching path produces no record); `collect(DISTINCT ...)` keeps the first
occurrence of each distinct entry. -/
def exploreRecords (g : Graph) (types : List String) (maxDepth : Nat)
    (start : String) : List (GNode × List ConnEntry) :=
  (resolveStart g start).filterMap (fun s =>
    if (exploreConns g types maxDepth s).isEmpty then none
    else some (s, dedupFirst (exploreConns g types maxDepth s).length
      (exploreConns g types maxDepth s)))

structure ExploreResult where
  success : Bool
  error : Option String
  startNode : Option GNode
  connectedNodes : List ConnEntry
  relationshipSummary : List (String × Nat)
deriving Repr, DecidableEq

def bumpCount : List (String × Nat) → String → List (String × Nat)
  | [], k => [(k, 1)]
  | (k2, n) :: rest, k =>
    if k2 = k then (k2, n + 1) :: rest else (k2, n) :: bumpCount rest k

/-- The relationship-type histogram built over all connections. -/
def relSummary (conns : List ConnEntry) : List (String × Nat) :=
  conns.foldl (fun acc c => c.relationships.foldl bumpCount acc) []

/-- `KnowledgeRetrieval.exploreKnowledgeGraph` (LIMIT 1 keeps the first
aggregated record; an empty record set is reported as
`{success:false, error:"No concept found matching: ..."}`). -/
def exploreKnowledgeGraph (g : Graph) (start : String) (types : List String)
    (maxDepth : Nat) : ExploreResult :=
  match (exploreRecords g types maxDepth start).head? with
  | none =>
    { success := false, error := some ("No concept found matching: " ++ start),
      startNode := none, connectedNodes := [], relationshipSummary := [] }
  | some r =>
    { success := true, error := none, startNode := some r.1,
      connectedNodes := r.2, relationshipSummary := relSummary r.2 }

theorem dedupFirst_ne_nil [DecidableEq α] (fuel : Nat) (l : List α) (h : l ≠ []) :
    dedupFirst fuel l ≠ [] := by
  cases l with
  | nil => exact absurd rfl h
  | cons a as =>
    cases fuel with
    | zero => simp [dedupFirst]
    | succ f => simp [dedupFirst]

/-- C10: when the start entity resolves only to nodes that have no
relationship path (within `maxDepth` hops, to a `:Knowledge` node), the
exploration returns exactly the same failure record as when no start entity
matches at all — `{success:false, error:"No concept found matching: ..."}` —
and a successful exploration never has an empty `connectedNodes` list. -/
theorem claim10_theorem (g : Graph) (start : String) (types : List String)
    (maxDepth : Nat) :
    (((resolveStart g start).all (fun s =>
        (exploreConns g types maxDepth s).isEmpty) = true) →
      exploreKnowledgeGraph g start types maxDepth
        = { success := false, error := some ("No concept found matching: " ++ start),
            startNode := none, connectedNodes := [], relationshipSummary := [] })
    ∧ ((exploreKnowledgeGraph g start types maxDepth).success = false
        ∨ (exploreKnowledgeGraph g start types maxDepth).connectedNodes.isEmpty = false) := by
  constructor
  · intro hall
    have hrec : exploreRecords g types maxDepth start = [] := by
      rw [exploreRecords, List.filterMap_eq_nil_iff]
      intro s hs
      have hempty := List.all_eq_true.mp hall s hs
      rw [if_pos hempty]
    rw [exploreKnowledgeGraph, hrec]
    rfl
  · rcases hrec : (exploreRecords g types maxDepth start).head? with _ | r
    · left
      rw [exploreKnowledgeGraph, hrec]
    · right
      have hmem : r ∈ exploreRecords g types maxDepth start :=
        List.mem_of_mem_head? (by simp [hrec])
      rcases List.mem_filterMap.mp hmem with ⟨s, _hs, heq⟩
      rcases hcnd : (exploreConns g types maxDepth s).isEmpty with _ | _
      · rw [hcnd] at heq
        simp only [Bool.false_eq_true, if_false] at heq
        have hr2 : r.2 = dedupFirst (exploreConns g types maxDepth s).length
            (exploreConns g types maxDepth s) := by
          rw [← Option.some_inj.mp heq]
        have hne : (exploreConns g types maxDepth s) ≠ [] := by
          intro hcon
          rw [hcon] at hcnd
          simp at hcnd
        rw [exploreKnowledgeGraph, hrec]
        simp only
        rw [hr2]
        rcases hde : (dedupFirst (exploreConns g types maxDepth s).length
            (exploreConns g types maxDepth s)).isEmpty with _ | _
        · rfl
        · exact absurd (List.isEmpty_iff.mp hde) (dedupFirst_ne_nil _ _ hne)
      · rw [hcnd] at heq
        simp at heq

/-- A single isolated `:Knowledge` node for the exploration witness. -/
def c10Graph : Graph :=
  { nodes := [{ id := "k1", labels := ["Knowledge", "Concept"],
                name := some "Lonely Concept", confidence := some (ratL 4 5) }]
    edges := [] }

/-- Witness for `claim10_theorem`: the start entity resolves to an existing
node with no relationships, and the result is the no-match failure record. -/
theorem claim10_witness :
    (resolveStart c10Graph "Lonely Concept").length = 1
    ∧ (resolveStart c10Graph "Lonely Concept").all (fun s =>
        (exploreConns c10Graph [] 3 s).isEmpty) = true
    ∧ exploreKnowledgeGraph c10Graph "Lonely Concept" [] 3
        = { success := false,
            error := some ("No concept found matching: " ++ "Lonely Concept"),
            startNode := none, connectedNodes := [], relationshipSummary := [] } :=
  ⟨by decide, by decide, (claim10_theorem c10Graph "Lonely Concept" [] 3).1 (by decide)⟩
